import Mathlib

/-!
Shallow embedding of the STUN codec and transaction retry machine of
src/aioice/stun.py.

Modelling conventions:
* Python `bytes` values are `List Nat` with every element below 256.
* Python `struct.pack`/`struct.unpack` for `!H` and `!I` are explicit
  big-endian byte arithmetic; `pack` raising `struct.error` on an
  out-of-range argument is modelled by `Option` at the call sites that
  can receive an out-of-range value.
* Python `dict` (and `OrderedDict`) values are association lists with
  Python insertion-order semantics: assigning to an existing key
  overwrites the value in place, assigning to a fresh key appends.
* Python exceptions are modelled by `Option`/`Except`.
* Python `str` values are represented by their UTF-8 encodings, which
  determine them uniquely; `pack_string` (str.encode) is therefore the
  identity on the representation and `unpack_string` (bytes.decode)
  validates UTF-8.
* `binascii.crc32` and HMAC-SHA1 (`hmac.new(key, data, "sha1")`) are
  Python standard library primitives, not code of this repository; they
  are abstracted as function parameters of the operations that call them.
* The asyncio event loop drives `Transaction` through exactly one pending
  `call_later` timer; the machine is modelled as an explicit state with
  a clock in milliseconds (0.5 s = 500 ms; all delays of the doubling
  schedule are exact in milliseconds, as they are in binary floating
  point).
-/

abbrev Bytes := List Nat

def COOKIE : Nat := 0x2112a442
def FINGERPRINT_XOR : Nat := 0x5354554e
def HEADER_LENGTH : Nat := 20
def IPV4_PROTOCOL : Nat := 1
def IPV6_PROTOCOL : Nat := 2

/-- RETRY_INTERVAL = 0.5 seconds, in milliseconds. -/
def RETRY_INTERVAL_MS : Nat := 500

def RETRY_MAX : Nat := 7

/-- struct.pack with format !H (big-endian unsigned 16-bit). -/
def packU16 (n : Nat) : Bytes := [n / 256 % 256, n % 256]

/-- struct.pack with format !I (big-endian unsigned 32-bit). -/
def packU32 (n : Nat) : Bytes :=
  [n / 16777216 % 256, n / 65536 % 256, n / 256 % 256, n % 256]

/-- struct.unpack with format !H applied to two bytes. -/
def u16be (b0 b1 : Nat) : Nat := b0 * 256 + b1

/-- struct.unpack with format !I applied to four bytes. -/
def u32be (b0 b1 b2 b3 : Nat) : Nat := ((b0 * 256 + b1) * 256 + b2) * 256 + b3

/-- Python dict assignment d[k] = v: overwrite in place if the key is
present, append otherwise. -/
def dictSet {α β : Type} [DecidableEq α] (d : List (α × β)) (k : α) (v : β) :
    List (α × β) :=
  if d.any (fun p => decide (p.1 = k)) then
    d.map (fun p => if p.1 = k then (k, v) else p)
  else
    d ++ [(k, v)]

/-- Python dict lookup d[k], as an Option (KeyError becomes none). -/
def dictGet {α β : Type} [DecidableEq α] (d : List (α × β)) (k : α) : Option β :=
  (d.find? (fun p => decide (p.1 = k))).map (fun p => p.2)

/-- ipaddress.IPv4Address / IPv6Address, kept as their packed byte form
(the packed form and the address object determine each other). -/
inductive IPAddress : Type
  | v4 (packed : Bytes)
  | v6 (packed : Bytes)
deriving DecidableEq

/-- The decoded value of a STUN attribute: an (address, port) pair, raw
bytes, a str (kept as its UTF-8 encoding), an unsigned 32-bit integer, or
Python None. -/
inductive AttrValue : Type
  | addr (a : IPAddress × Nat)
  | bytes (b : Bytes)
  | str (s : Bytes)
  | unsigned (n : Nat)
  | none
deriving DecidableEq

/-- The pack/unpack function pair of an ATTRIBUTES entry, as a closed
enum: (pack_address, unpack_address), (pack_bytes, unpack_bytes),
(pack_none, unpack_none), (pack_string, unpack_string),
(pack_unsigned, unpack_unsigned), (pack_xor_address, unpack_xor_address). -/
inductive PackKind : Type
  | address
  | bytes
  | none
  | str
  | unsigned
  | xorAddress
deriving DecidableEq

/-- One entry of the ATTRIBUTES table: (type code, name, pack, unpack). -/
structure AttrDesc : Type where
  code : Nat
  name : String
  kind : PackKind
deriving DecidableEq

def ATTRIBUTES : List AttrDesc := [
  ⟨0x0001, "MAPPED-ADDRESS", .address⟩,
  ⟨0x0003, "CHANGE-REQUEST", .unsigned⟩,
  ⟨0x0004, "SOURCE-ADDRESS", .address⟩,
  ⟨0x0005, "CHANGED-ADDRESS", .address⟩,
  ⟨0x0006, "USERNAME", .str⟩,
  ⟨0x0008, "MESSAGE-INTEGRITY", .bytes⟩,
  ⟨0x0012, "XOR-PEER-ADDRESS", .xorAddress⟩,
  ⟨0x0014, "REALM", .str⟩,
  ⟨0x0015, "NONCE", .bytes⟩,
  ⟨0x0016, "XOR-RELAYED-ADDRESS", .xorAddress⟩,
  ⟨0x0020, "XOR-MAPPED-ADDRESS", .xorAddress⟩,
  ⟨0x0024, "PRIORITY", .unsigned⟩,
  ⟨0x0025, "USE-CANDIDATE", .none⟩,
  ⟨0x8022, "SOFTWARE", .str⟩,
  ⟨0x8028, "FINGERPRINT", .unsigned⟩,
  ⟨0x8029, "ICE-CONTROLLED", .bytes⟩,
  ⟨0x802a, "ICE-CONTROLLING", .bytes⟩,
  ⟨0x802b, "RESPONSE-ORIGIN", .address⟩,
  ⟨0x802c, "OTHER-ADDRESS", .address⟩]

/-- The startup loop `for attr in ATTRIBUTES: BY_TYPE[attr[0]] = attr`,
generalized over the table it reads. -/
def buildByType (table : List AttrDesc) : List (Nat × AttrDesc) :=
  table.foldl (fun d a => dictSet d a.code a) []

/-- The startup loop `for attr in ATTRIBUTES: BY_NAME[attr[1]] = attr`,
generalized over the table it reads. -/
def buildByName (table : List AttrDesc) : List (String × AttrDesc) :=
  table.foldl (fun d a => dictSet d a.name a) []

def ATTRIBUTES_BY_TYPE : List (Nat × AttrDesc) := buildByType ATTRIBUTES

def ATTRIBUTES_BY_NAME : List (String × AttrDesc) := buildByName ATTRIBUTES

/-- `attr_type in ATTRIBUTES_BY_TYPE` plus `ATTRIBUTES_BY_TYPE[attr_type]`. -/
def lookupByType (t : Nat) : Option AttrDesc := dictGet ATTRIBUTES_BY_TYPE t

/-- `ATTRIBUTES_BY_NAME[attr_name]` (KeyError becomes none). -/
def lookupByName (n : String) : Option AttrDesc := dictGet ATTRIBUTES_BY_NAME n

/-- xor_address(data, transaction_id).  The pad is
pack("!HI", COOKIE >> 16, COOKIE) + transaction_id, so the two bytes of
COOKIE >> 16 precede the four bytes of COOKIE.  The source loop indexes
xpad[i - 2] for i in range(2, len(data)); when data is longer than
2 + len(xpad) that raises IndexError, modelled by none. -/
def xor_address (data transaction_id : Bytes) : Option Bytes :=
  let xpad := packU16 (COOKIE >>> 16) ++ packU32 COOKIE ++ transaction_id
  if data.length ≤ 2 + xpad.length then
    some (data.take 2 ++ (data.drop 2).zipWith Nat.xor xpad)
  else
    Option.none

/-- pack_address(value): [0, protocol, port as u16, packed address].
pack("!BBH", 0, protocol, port) raises struct.error when the port does
not fit 16 bits (none).  The unsupported-family ValueError branch is
unreachable in the typed model because IPAddress has only v4 and v6. -/
def pack_address (value : IPAddress × Nat) : Option Bytes :=
  match value.1 with
  | .v4 packed =>
      if value.2 < 65536 then some ([0, IPV4_PROTOCOL] ++ packU16 value.2 ++ packed)
      else Option.none
  | .v6 packed =>
      if value.2 < 65536 then some ([0, IPV6_PROTOCOL] ++ packU16 value.2 ++ packed)
      else Option.none

/-- unpack_address(data), with the three ValueError messages of the
source. -/
def unpack_address (data : Bytes) : Except String (IPAddress × Nat) :=
  match data with
  | reserved :: protocol :: p0 :: p1 :: address =>
      let _ := reserved
      let port := u16be p0 p1
      if protocol = IPV4_PROTOCOL then
        if address.length ≠ 4 then .error "STUN address has invalid length for IPv4"
        else .ok (.v4 address, port)
      else if protocol = IPV6_PROTOCOL then
        if address.length ≠ 16 then .error "STUN address has invalid length for IPv6"
        else .ok (.v6 address, port)
      else .error "STUN address protocol is unsupported"
  | _ => .error "STUN address length is less than 4 bytes"

/-- Is this byte a UTF-8 continuation byte (0x80..0xbf)? -/
def isCont (b : Nat) : Bool := decide (128 ≤ b) && decide (b < 192)

/-- Strict UTF-8 validity, as enforced by Python bytes.decode("utf8"):
rejects continuation bytes in lead position, overlong forms, surrogates
and code points above 0x10ffff. -/
def validUtf8 : Bytes → Bool
  | [] => true
  | b :: rest =>
      if b < 128 then validUtf8 rest
      else if b < 194 then false
      else if b < 224 then
        match rest with
        | c1 :: r => isCont c1 && validUtf8 r
        | [] => false
      else if b < 240 then
        match rest with
        | c1 :: c2 :: r =>
            isCont c1 && isCont c2 &&
            (decide (b ≠ 224) || decide (160 ≤ c1)) &&
            (decide (b ≠ 237) || decide (c1 < 160)) &&
            validUtf8 r
        | _ => false
      else if b < 245 then
        match rest with
        | c1 :: c2 :: c3 :: r =>
            isCont c1 && isCont c2 && isCont c3 &&
            (decide (b ≠ 240) || decide (144 ≤ c1)) &&
            (decide (b ≠ 244) || decide (c1 < 144)) &&
            validUtf8 r
        | _ => false
      else false

/-- The pack side of an attribute: dispatch of __bytes__ on the pack
function of the descriptor.  A value of the wrong Python type makes the
pack function raise (none); pack_none ignores its value and emits no
bytes; pack_unsigned (struct.pack "!I") raises on values not fitting 32
bits. -/
def packAttr (kind : PackKind) (value : AttrValue) (transaction_id : Bytes) :
    Option Bytes :=
  match kind, value with
  | .address, .addr a => pack_address a
  | .xorAddress, .addr a => (pack_address a).bind (fun b => xor_address b transaction_id)
  | .bytes, .bytes b => some b
  | .none, _ => some []
  | .str, .str s => some s
  | .unsigned, .unsigned n => if n < 4294967296 then some (packU32 n) else Option.none
  | _, _ => Option.none

/-- The unpack side of an attribute: dispatch of parse_message on the
unpack function of the descriptor.  unpack_unsigned (struct.unpack "!I")
requires exactly 4 bytes; unpack_string (bytes.decode "utf8") requires
valid UTF-8; unpack_xor_address raises IndexError through xor_address on
data longer than 20 bytes. -/
def unpackAttr (kind : PackKind) (data : Bytes) (transaction_id : Bytes) :
    Except String AttrValue :=
  match kind with
  | .address => (unpack_address data).map .addr
  | .xorAddress =>
      match xor_address data transaction_id with
      | some xdata => (unpack_address xdata).map .addr
      | Option.none => .error "IndexError"
  | .bytes => .ok (.bytes data)
  | .none => .ok .none
  | .str => if validUtf8 data then .ok (.str data) else .error "UnicodeDecodeError"
  | .unsigned =>
      match data with
      | [b0, b1, b2, b3] => .ok (.unsigned (u32be b0 b1 b2 b3))
      | _ => .error "struct.error"

/-- The padding length used by both the serializer and the parser:
4 * ((attr_len + 3) // 4) - attr_len. -/
def padLen (attr_len : Nat) : Nat := 4 * ((attr_len + 3) / 4) - attr_len

/-- A STUN message: method, class, transaction id and the ordered
attribute dict. -/
structure Message : Type where
  message_method : Nat
  message_class : Nat
  transaction_id : Bytes
  attributes : List (String × AttrValue)
deriving DecidableEq

/-- Class enum values. -/
def ClassREQUEST : Nat := 0x000
def ClassINDICATION : Nat := 0x010
def ClassRESPONSE : Nat := 0x100
def ClassERROR : Nat := 0x110

/-- Method enum values. -/
def MethodBINDING : Nat := 0x1

/-- The attribute loop of Message.__bytes__: for each attribute look the
descriptor up by name (KeyError becomes none), pack the value, emit
type and length as u16 (struct.error when the length does not fit 16
bits), the value, and zero padding. -/
def encodeAttrs (transaction_id : Bytes) :
    List (String × AttrValue) → Option Bytes
  | [] => some []
  | (attr_name, attr_value) :: rest =>
      (lookupByName attr_name).bind (fun desc =>
        (packAttr desc.kind attr_value transaction_id).bind (fun v =>
          if desc.code < 65536 ∧ v.length < 65536 then
            (encodeAttrs transaction_id rest).map (fun restBytes =>
              packU16 desc.code ++ packU16 v.length ++ v ++
              List.replicate (padLen v.length) 0 ++ restBytes)
          else Option.none))

/-- Message.__bytes__: the attribute section prefixed by the 20-byte
header pack("!HHI12s", method | class, len(data), COOKIE,
transaction_id).  Format "12s" truncates or zero-pads the transaction id
to 12 bytes; "H" raises struct.error when the type field or the length
does not fit 16 bits. -/
def Message.toBytes (m : Message) : Option Bytes :=
  (encodeAttrs m.transaction_id m.attributes).bind (fun data =>
    let message_type := m.message_method ||| m.message_class
    if message_type < 65536 ∧ data.length < 65536 then
      some (packU16 message_type ++ packU16 data.length ++ packU32 COOKIE ++
            (m.transaction_id.take 12 ++
             List.replicate (12 - m.transaction_id.length) 0) ++ data)
    else Option.none)

/-- Message.add_fingerprint, with binascii.crc32 abstracted as a
parameter.  Serializes the message, patches the 16-bit length field to
account for 8 more bytes (pack("!H", len(data) - HEADER_LENGTH + 8)
raises struct.error when that does not fit 16 bits), and stores the
CRC32 of the patched bytes XOR 0x5354554e under FINGERPRINT. -/
def Message.add_fingerprint (m : Message) (crc32 : Bytes → Nat) : Option Message :=
  m.toBytes.bind (fun data =>
    let n := data.length - HEADER_LENGTH + 8
    if n < 65536 then
      let patched := data.take 2 ++ packU16 n ++ data.drop 4
      let fp := AttrValue.unsigned (Nat.xor (crc32 patched) FINGERPRINT_XOR)
      some { m with attributes := dictSet m.attributes "FINGERPRINT" fp }
    else Option.none)

/-- Message.add_message_integrity, with HMAC-SHA1 abstracted as a
parameter (hmac.new(key, data, "sha1").digest() is a 20-byte digest).
Serializes the message, patches the 16-bit length field to account for
24 more bytes, and stores the digest of the patched bytes under
MESSAGE-INTEGRITY. -/
def Message.add_message_integrity (m : Message) (hmacSha1 : Bytes → Bytes → Bytes)
    (key : Bytes) : Option Message :=
  m.toBytes.bind (fun data =>
    let n := data.length - HEADER_LENGTH + 24
    if n < 65536 then
      let patched := data.take 2 ++ packU16 n ++ data.drop 4
      let digest := AttrValue.bytes (hmacSha1 key patched)
      some { m with attributes := dictSet m.attributes "MESSAGE-INTEGRITY" digest }
    else Option.none)

/-- The attribute walk of parse_message, with explicit fuel so that the
recursion is structural (one unit of fuel per loop iteration; the loop
advances by at least 4 bytes, so fuel = remaining length always
suffices).  Each iteration reads type and length from the first 4 bytes,
slices the value (Python slicing silently truncates), unpacks it when
the type code is registered (storing the value with dict semantics) and
skips it otherwise, then advances past value and padding. -/
def parseAttrsGo (transaction_id : Bytes) :
    Nat → Bytes → List (String × AttrValue) →
    Except String (List (String × AttrValue))
  | fuel + 1, t0 :: t1 :: l0 :: l1 :: tail, acc =>
      let attr_type := u16be t0 t1
      let attr_len := u16be l0 l1
      let v := tail.take attr_len
      match lookupByType attr_type with
      | some desc =>
          match unpackAttr desc.kind v transaction_id with
          | .ok value =>
              parseAttrsGo transaction_id fuel (tail.drop (attr_len + padLen attr_len))
                (dictSet acc desc.name value)
          | .error e => .error e
      | Option.none =>
          parseAttrsGo transaction_id fuel (tail.drop (attr_len + padLen attr_len)) acc
  | _, _, acc => .ok acc

/-- The attribute walk of parse_message: while pos <= len(data) - 4,
starting from the byte suffix after the header. -/
def parseAttrs (transaction_id : Bytes) (rest : Bytes)
    (acc : List (String × AttrValue)) :
    Except String (List (String × AttrValue)) :=
  parseAttrsGo transaction_id rest.length rest acc

/-- parse_message(data).  The header is unpack("!HHI12s", data[0:20]);
the cookie field (bytes 4..7) is read into a variable the source never
uses, so it does not appear here.  Method and class are recovered as
message_type & 0x3eef and message_type & 0x0100. -/
def parse_message (data : Bytes) : Except String Message :=
  if data.length < HEADER_LENGTH then
    .error "STUN message length is less than 20 bytes"
  else
    let message_type := u16be (data.getD 0 0) (data.getD 1 0)
    let length := u16be (data.getD 2 0) (data.getD 3 0)
    let transaction_id := (data.drop 8).take 12
    if data.length ≠ HEADER_LENGTH + length then
      .error "STUN message length does not match"
    else
      match parseAttrs transaction_id (data.drop HEADER_LENGTH) [] with
      | .error e => .error e
      | .ok attributes =>
          .ok { message_method := message_type &&& 0x3eef,
                message_class := message_type &&& 0x0100,
                transaction_id := transaction_id,
                attributes := attributes }

/-- The possible resolutions of the future a Transaction.run caller
awaits: set_result(message) or set_exception(Timeout). -/
inductive TxOutcome : Type
  | response (msg : Message)
  | timeout
deriving DecidableEq

/-- The observable state of a Transaction together with its event loop:
tries and timeout_delay as in the source, the future (none while
pending), the pending call_later handle (the absolute time at which
__retry is scheduled; none when no callback is pending), the trace of
protocol.send calls (absolute times), and the clock.  Times are in
milliseconds. -/
structure Transaction : Type where
  tries : Nat
  timeout_delay : Nat
  future : Option TxOutcome
  timeout_handle : Option Nat
  sends : List Nat
  now : Nat
deriving DecidableEq

/-- A Transaction as constructed by __init__ (before run is called). -/
def Transaction.initial : Transaction :=
  { tries := 0, timeout_delay := 0, future := Option.none,
    timeout_handle := Option.none, sends := [], now := 0 }

/-- Transaction.__retry: on an exhausted budget resolve the future with
the Timeout exception; otherwise send the request now, compute the delay
(RETRY_INTERVAL on the first send, twice the previous delay afterwards),
schedule the next __retry with call_later, and increment tries. -/
def Transaction.retry (s : Transaction) : Transaction :=
  if RETRY_MAX ≤ s.tries then
    { s with future := some .timeout }
  else
    let delay := if s.tries ≠ 0 then 2 * s.timeout_delay else RETRY_INTERVAL_MS
    { s with sends := s.sends ++ [s.now],
             timeout_delay := delay,
             timeout_handle := some (s.now + delay),
             tries := s.tries + 1 }

/-- Transaction.run up to its await: the first __retry runs immediately. -/
def Transaction.run0 : Transaction := Transaction.retry Transaction.initial

/-- The event loop firing the pending call_later callback: the clock
jumps to the scheduled time, the handle is spent, and __retry runs.
With no pending callback nothing happens. -/
def Transaction.fireTimer (s : Transaction) : Transaction :=
  match s.timeout_handle with
  | some t => Transaction.retry { s with now := t, timeout_handle := Option.none }
  | Option.none => s

/-- Transaction.message_received: cancel the pending timer and resolve
the future with the message. -/
def Transaction.message_received (s : Transaction) (msg : Message) : Transaction :=
  { s with timeout_handle := Option.none, future := some (.response msg) }

deriving instance DecidableEq for Except

/-! ### Helper lemmas -/

theorem u16be_packU16 (n : Nat) (h : n < 65536) :
    u16be (n / 256 % 256) (n % 256) = n := by
  simp only [u16be]
  omega

theorem u32be_packU32 (n : Nat) (h : n < 4294967296) :
    u32be (n / 16777216 % 256) (n / 65536 % 256) (n / 256 % 256) (n % 256) = n := by
  simp only [u32be]
  omega

theorem packU16_cons (n : Nat) (l : Bytes) :
    packU16 n ++ l = n / 256 % 256 :: n % 256 :: l := by
  simp [packU16]

theorem zipWith_xor_cancel : ∀ (l p : Bytes), l.length ≤ p.length →
    (l.zipWith Nat.xor p).zipWith Nat.xor p = l
  | [], _, _ => by simp
  | a :: l, b :: p, h => by
      have hr := zipWith_xor_cancel l p (by simpa using h)
      simp only [List.zipWith_cons_cons, hr]
      rw [show Nat.xor (Nat.xor a b) b = a from Nat.xor_cancel_right b a]

/-- The length of the pad built by xor_address. -/
theorem xpad_length (transaction_id : Bytes) :
    (packU16 (COOKIE >>> 16) ++ packU32 COOKIE ++ transaction_id).length =
      6 + transaction_id.length := by
  simp [packU16, packU32]
  omega

/-- On short inputs (at most two bytes) xor_address is the identity. -/
theorem xor_address_short (data transaction_id : Bytes) (h : data.length ≤ 2) :
    xor_address data transaction_id = some data := by
  simp only [xor_address]
  rw [if_pos (by omega)]
  rw [List.drop_eq_nil_of_le h, List.zipWith_nil_left, List.append_nil,
    List.take_of_length_le h]

theorem xor_address_length (data transaction_id out : Bytes)
    (h : xor_address data transaction_id = some out) : out.length = data.length := by
  simp only [xor_address] at h
  split at h
  · rename_i hle
    rw [xpad_length] at hle
    cases h
    simp only [List.length_append, List.length_take, List.length_zipWith,
      List.length_drop, packU16, packU32, List.length_cons, List.length_nil] at hle ⊢
    omega
  · cases h

theorem xor_address_involutive (data transaction_id : Bytes)
    (h : data.length ≤ 8 + transaction_id.length) :
    (xor_address data transaction_id).bind (fun y => xor_address y transaction_id) =
      some data := by
  rcases data with _ | ⟨a, _ | ⟨b, rest⟩⟩
  · rw [xor_address_short _ _ (by simp), Option.some_bind,
      xor_address_short _ _ (by simp)]
  · rw [xor_address_short _ _ (by simp), Option.some_bind,
      xor_address_short _ _ (by simp)]
  · simp only [List.length_cons] at h
    have hlen : rest.length ≤ (packU16 (COOKIE >>> 16) ++ packU32 COOKIE ++
        transaction_id).length := by rw [xpad_length]; omega
    simp only [xor_address, List.take_succ_cons, List.take_zero,
      List.drop_succ_cons, List.drop_zero]
    rw [if_pos (by simp only [List.length_cons]; rw [xpad_length]; omega)]
    simp only [Option.some_bind, List.cons_append, List.nil_append,
      List.take_succ_cons, List.take_zero, List.drop_succ_cons, List.drop_zero]
    rw [if_pos (by
      simp only [List.length_cons, List.length_zipWith]
      rw [xpad_length]
      omega)]
    rw [zipWith_xor_cancel rest _ hlen]

theorem dictSet_fresh {α β : Type} [DecidableEq α] (d : List (α × β)) (k : α) (v : β)
    (h : ∀ p ∈ d, p.1 ≠ k) : dictSet d k v = d ++ [(k, v)] := by
  simp only [dictSet]
  rw [if_neg]
  simp only [List.any_eq_true, decide_eq_true_eq, not_exists]
  intro p hp
  exact h p hp.1 hp.2

/-- Every entry of the built by-name index points back to a consistent
entry of the by-type index; checked by evaluation of the fixed table. -/
theorem attrTable_byName_spec : ∀ p ∈ ATTRIBUTES_BY_NAME,
    p.2.name = p.1 ∧ lookupByType p.2.code = some p.2 ∧ p.2.code < 65536 := by decide

theorem lookupByName_spec (n : String) (d : AttrDesc) (h : lookupByName n = some d) :
    d.name = n ∧ lookupByType d.code = some d ∧ d.code < 65536 := by
  simp only [lookupByName, dictGet, Option.map_eq_some'] at h
  obtain ⟨p, hfind, hp2⟩ := h
  have hmem := List.mem_of_find?_eq_some hfind
  have hpred := List.find?_some hfind
  simp only [decide_eq_true_eq] at hpred
  obtain ⟨h1, h2, h3⟩ := attrTable_byName_spec p hmem
  subst hp2
  exact ⟨h1.trans hpred, h2, h3⟩

theorem parseAttrsGo_short (transaction_id : Bytes) (fuel : Nat) (rest : Bytes)
    (acc : List (String × AttrValue)) (h : rest.length < 4) :
    parseAttrsGo transaction_id fuel rest acc = .ok acc := by
  match fuel, rest with
  | 0, _ => rfl
  | _ + 1, [] => rfl
  | _ + 1, [_] => rfl
  | _ + 1, [_, _] => rfl
  | _ + 1, [_, _, _] => rfl
  | _ + 1, _ :: _ :: _ :: _ :: _ => simp only [List.length_cons] at h; omega

theorem parseAttrsGo_ge (transaction_id : Bytes) :
    ∀ (f1 : Nat) (rest : Bytes) (acc : List (String × AttrValue)),
    rest.length ≤ f1 → ∀ (f2 : Nat), rest.length ≤ f2 →
    parseAttrsGo transaction_id f1 rest acc = parseAttrsGo transaction_id f2 rest acc := by
  intro f1
  induction f1 with
  | zero =>
      intro rest acc h1 f2 h2
      have hnil : rest = [] := List.eq_nil_of_length_eq_zero (Nat.le_zero.mp h1)
      subst hnil
      rw [parseAttrsGo_short _ _ _ _ (by simp), parseAttrsGo_short _ _ _ _ (by simp)]
  | succ f ih =>
      intro rest acc h1 f2 h2
      match rest with
      | [] => rw [parseAttrsGo_short _ _ _ _ (by simp), parseAttrsGo_short _ _ _ _ (by simp)]
      | [_] => rw [parseAttrsGo_short _ _ _ _ (by simp), parseAttrsGo_short _ _ _ _ (by simp)]
      | [_, _] => rw [parseAttrsGo_short _ _ _ _ (by simp), parseAttrsGo_short _ _ _ _ (by simp)]
      | [_, _, _] => rw [parseAttrsGo_short _ _ _ _ (by simp), parseAttrsGo_short _ _ _ _ (by simp)]
      | t0 :: t1 :: l0 :: l1 :: tail =>
          simp only [List.length_cons] at h1 h2
          match f2, h2 with
          | g + 1, _ =>
              simp only [parseAttrsGo]
              have hdrop : ∀ (k : Nat), (tail.drop k).length ≤ f ∧ (tail.drop k).length ≤ g := by
                intro k
                constructor <;> (simp only [List.length_drop]; omega)
              split
              · split
                · exact ih _ _ (hdrop _).1 _ (hdrop _).2
                · rfl
              · exact ih _ _ (hdrop _).1 _ (hdrop _).2

theorem parseAttrs_cons (transaction_id : Bytes) (t0 t1 l0 l1 : Nat) (tail : Bytes)
    (acc : List (String × AttrValue)) :
    parseAttrs transaction_id (t0 :: t1 :: l0 :: l1 :: tail) acc =
      (match lookupByType (u16be t0 t1) with
       | some desc =>
           match unpackAttr desc.kind (tail.take (u16be l0 l1)) transaction_id with
           | .ok value =>
               parseAttrs transaction_id
                 (tail.drop (u16be l0 l1 + padLen (u16be l0 l1)))
                 (dictSet acc desc.name value)
           | .error e => .error e
       | Option.none =>
           parseAttrs transaction_id
             (tail.drop (u16be l0 l1 + padLen (u16be l0 l1))) acc) := by
  simp only [parseAttrs, List.length_cons, parseAttrsGo]
  have hd : ∀ (k : Nat), (tail.drop k).length ≤ tail.length + 1 + 1 + 1 := by
    intro k
    simp only [List.length_drop]
    omega
  split
  · split
    · exact parseAttrsGo_ge _ _ _ _ (hd _) _ (Nat.le_refl _)
    · rfl
  · exact parseAttrsGo_ge _ _ _ _ (hd _) _ (Nat.le_refl _)

theorem parseAttrs_short (transaction_id : Bytes) (rest : Bytes)
    (acc : List (String × AttrValue)) (h : rest.length < 4) :
    parseAttrs transaction_id rest acc = .ok acc :=
  parseAttrsGo_short _ _ _ _ h

/-! ### Well-formedness of message values (what Python objects can hold) -/

/-- An ipaddress object of the right family: 4 (respectively 16) packed
bytes, each an actual byte. -/
def wfIP : IPAddress → Bool
  | .v4 packed => decide (packed.length = 4) && packed.all (fun b => decide (b < 256))
  | .v6 packed => decide (packed.length = 16) && packed.all (fun b => decide (b < 256))

/-- The attribute values Python can hold for each pack kind: a valid
address with a 16-bit port, actual bytes, a valid UTF-8 encoding, a
32-bit unsigned value, or None. -/
def wfValue : PackKind → AttrValue → Bool
  | .address, .addr a => wfIP a.1 && decide (a.2 < 65536)
  | .xorAddress, .addr a => wfIP a.1 && decide (a.2 < 65536)
  | .bytes, .bytes b => b.all (fun x => decide (x < 256))
  | .str, .str s => validUtf8 s && s.all (fun x => decide (x < 256))
  | .unsigned, .unsigned n => decide (n < 4294967296)
  | .none, .none => true
  | _, _ => false

/-- A well-formed attribute dict: every name is registered with a
well-formed value of the kind the registry assigns it, and no name
repeats. -/
def wfAttrs : List (String × AttrValue) → Bool
  | [] => true
  | (n, v) :: rest =>
      (match lookupByName n with
       | some d => wfValue d.kind v
       | Option.none => false) &&
      rest.all (fun q => !(n == q.1)) && wfAttrs rest

/-! ### Bit arithmetic of the message type field -/

theorem testBit_of_masked {m : Nat} (hm : m &&& 0x3eef = m) (i : Nat) :
    (m.testBit i && Nat.testBit 0x3eef i) = m.testBit i := by
  rw [← Nat.testBit_land, hm]

theorem mask_method (m c : Nat) (hm : m &&& 0x3eef = m) (hc : c = 0 ∨ c = 0x100) :
    (m ||| c) &&& 0x3eef = m := by
  rcases hc with rfl | rfl
  · rw [Nat.or_zero]
    exact hm
  · apply Nat.eq_of_testBit_eq
    intro i
    rw [Nat.testBit_land, Nat.testBit_lor,
      show (0x100 : Nat) = 2 ^ 8 by norm_num, Nat.testBit_two_pow]
    by_cases h8 : i = 8
    · subst h8
      have h1 : Nat.testBit 0x3eef 8 = false := by decide
      have h2 := testBit_of_masked hm 8
      rw [h1, Bool.and_false] at h2
      rw [h1, Bool.and_false, ← h2]
    · rw [show (decide (8 = i)) = false by simp [Ne.symm h8], Bool.or_false]
      exact testBit_of_masked hm i

theorem mask_class (m c : Nat) (hm : m &&& 0x3eef = m) (hc : c = 0 ∨ c = 0x100) :
    (m ||| c) &&& 0x0100 = c := by
  rcases hc with rfl | rfl
  · rw [Nat.or_zero]
    apply Nat.eq_of_testBit_eq
    intro i
    rw [Nat.testBit_land, Nat.zero_testBit,
      show (0x100 : Nat) = 2 ^ 8 by norm_num, Nat.testBit_two_pow]
    by_cases h8 : i = 8
    · subst h8
      have h1 : Nat.testBit 0x3eef 8 = false := by decide
      have h2 := testBit_of_masked hm 8
      rw [h1, Bool.and_false] at h2
      rw [← h2]
      simp
    · simp [Ne.symm h8]
  · apply Nat.eq_of_testBit_eq
    intro i
    rw [Nat.testBit_land, Nat.testBit_lor,
      show (0x100 : Nat) = 2 ^ 8 by norm_num, Nat.testBit_two_pow]
    by_cases h8 : i = 8
    · subst h8
      simp
    · rw [show (decide (8 = i)) = false by simp [Ne.symm h8]]
      simp

theorem message_type_lt (m c : Nat) (hm : m &&& 0x3eef = m) (hc : c = 0 ∨ c = 0x100) :
    m ||| c < 65536 := by
  have hpow : (2 : Nat) ^ 16 = 65536 := by norm_num
  have h1 : m < 2 ^ 16 := by
    have h := Nat.and_le_right (n := m) (m := 0x3eef)
    rw [hm] at h
    omega
  have h2 : c < 2 ^ 16 := by rcases hc with rfl | rfl <;> omega
  have h3 := Nat.or_lt_two_pow h1 h2
  omega

theorem unpack_pack_address (a : IPAddress × Nat) (v : Bytes)
    (hw : (wfIP a.1 && decide (a.2 < 65536)) = true)
    (hp : pack_address a = some v) :
    unpack_address v = .ok a := by
  obtain ⟨ip, port⟩ := a
  simp only [Bool.and_eq_true, decide_eq_true_eq] at hw
  obtain ⟨hip, hport⟩ := hw
  cases ip with
  | v4 packed =>
      simp only [pack_address, if_pos hport] at hp
      simp only [wfIP, Bool.and_eq_true, decide_eq_true_eq] at hip
      cases hp
      simp [unpack_address, packU16_cons, IPV4_PROTOCOL, IPV6_PROTOCOL, hip.1,
        u16be_packU16 port hport]
  | v6 packed =>
      simp only [pack_address, if_pos hport] at hp
      simp only [wfIP, Bool.and_eq_true, decide_eq_true_eq] at hip
      cases hp
      simp [unpack_address, packU16_cons, IPV4_PROTOCOL, IPV6_PROTOCOL, hip.1,
        u16be_packU16 port hport]

theorem pack_address_length (a : IPAddress × Nat) (v : Bytes)
    (hw : wfIP a.1 = true) (hp : pack_address a = some v) :
    v.length = 8 ∨ v.length = 20 := by
  obtain ⟨ip, port⟩ := a
  cases ip with
  | v4 packed =>
      simp only [pack_address] at hp
      split at hp
      · cases hp
        simp only [wfIP, Bool.and_eq_true, decide_eq_true_eq] at hw
        simp [packU16, hw.1]
      · cases hp
  | v6 packed =>
      simp only [pack_address] at hp
      split at hp
      · cases hp
        simp only [wfIP, Bool.and_eq_true, decide_eq_true_eq] at hw
        simp [packU16, hw.1]
      · cases hp

theorem unpackAttr_packAttr (kind : PackKind) (value : AttrValue)
    (transaction_id : Bytes) (v : Bytes)
    (hw : wfValue kind value = true)
    (ht : transaction_id.length = 12)
    (hp : packAttr kind value transaction_id = some v) :
    unpackAttr kind v transaction_id = .ok value := by
  cases kind with
  | address =>
      cases value with
      | addr a =>
          simp only [packAttr] at hp
          simp only [unpackAttr, unpack_pack_address a v hw hp]
          rfl
      | bytes b => simp [wfValue] at hw
      | str s => simp [wfValue] at hw
      | unsigned n => simp [wfValue] at hw
      | none => simp [wfValue] at hw
  | xorAddress =>
      cases value with
      | addr a =>
          simp only [packAttr, Option.bind_eq_some] at hp
          obtain ⟨b, hb, hxor⟩ := hp
          have hblen : b.length ≤ 8 + transaction_id.length := by
            rcases pack_address_length a b (by
              simp only [wfValue, Bool.and_eq_true] at hw
              exact hw.1) hb with h | h <;> omega
          have hinv := xor_address_involutive b transaction_id hblen
          rw [hxor, Option.some_bind] at hinv
          simp only [unpackAttr, hinv, unpack_pack_address a b hw hb]
          rfl
      | bytes b => simp [wfValue] at hw
      | str s => simp [wfValue] at hw
      | unsigned n => simp [wfValue] at hw
      | none => simp [wfValue] at hw
  | bytes =>
      cases value with
      | bytes b =>
          simp only [packAttr] at hp
          cases hp
          rfl
      | addr a => simp [wfValue] at hw
      | str s => simp [wfValue] at hw
      | unsigned n => simp [wfValue] at hw
      | none => simp [wfValue] at hw
  | none =>
      cases value with
      | none =>
          simp only [packAttr] at hp
          cases hp
          rfl
      | addr a => simp [wfValue] at hw
      | bytes b => simp [wfValue] at hw
      | str s => simp [wfValue] at hw
      | unsigned n => simp [wfValue] at hw
  | str =>
      cases value with
      | str s =>
          simp only [packAttr] at hp
          cases hp
          simp only [wfValue, Bool.and_eq_true] at hw
          simp only [unpackAttr, hw.1, if_pos]
      | addr a => simp [wfValue] at hw
      | bytes b => simp [wfValue] at hw
      | unsigned n => simp [wfValue] at hw
      | none => simp [wfValue] at hw
  | unsigned =>
      cases value with
      | unsigned n =>
          simp only [wfValue, decide_eq_true_eq] at hw
          simp only [packAttr, if_pos hw] at hp
          cases hp
          simp only [packU32, unpackAttr, u32be_packU32 n hw]
      | addr a => simp [wfValue] at hw
      | bytes b => simp [wfValue] at hw
      | str s => simp [wfValue] at hw
      | none => simp [wfValue] at hw

theorem parseAttrs_encodeAttrs (transaction_id : Bytes)
    (ht : transaction_id.length = 12) :
    ∀ (attrs acc : List (String × AttrValue)) (enc : Bytes),
    wfAttrs attrs = true →
    (∀ p ∈ acc, ∀ q ∈ attrs, p.1 ≠ q.1) →
    encodeAttrs transaction_id attrs = some enc →
    parseAttrs transaction_id enc acc = .ok (acc ++ attrs)
  | [], acc, enc, _, _, henc => by
      simp only [encodeAttrs] at henc
      cases henc
      rw [parseAttrs_short _ _ _ (by simp)]
      simp
  | (attr_name, attr_value) :: rest, acc, enc, hwf, hdisj, henc => by
      simp only [encodeAttrs, Option.bind_eq_some] at henc
      obtain ⟨desc, hl, v, hpk, hif⟩ := henc
      by_cases hc : desc.code < 65536 ∧ v.length < 65536
      case neg =>
        rw [if_neg hc] at hif
        simp at hif
      rw [if_pos hc] at hif
      simp only [Option.map_eq_some'] at hif
      obtain ⟨restB, hrest, henc⟩ := hif
      subst henc
      have hw1 : wfValue desc.kind attr_value = true := by
        have h := hwf
        simp only [wfAttrs, hl, Bool.and_eq_true] at h
        exact h.1.1
      have h2 : ∀ q ∈ rest, attr_name ≠ q.1 := by
        have h := hwf
        simp only [wfAttrs, hl, Bool.and_eq_true, List.all_eq_true] at h
        intro q hq
        have := h.1.2 q hq
        simpa using this
      have h3 : wfAttrs rest = true := by
        have h := hwf
        simp only [wfAttrs, hl, Bool.and_eq_true] at h
        exact h.2
      obtain ⟨hdn, hdt, hdc⟩ := lookupByName_spec _ _ hl
      simp only [List.append_assoc]
      rw [packU16_cons, packU16_cons, parseAttrs_cons,
        u16be_packU16 desc.code hdc, u16be_packU16 v.length hc.2, hdt]
      dsimp only
      rw [List.take_left, unpackAttr_packAttr desc.kind attr_value transaction_id v
        hw1 ht hpk]
      dsimp only
      rw [hdn]
      rw [dictSet_fresh acc attr_name attr_value
        (fun p hp => hdisj p hp (attr_name, attr_value) (List.mem_cons_self _ _))]
      rw [← List.append_assoc v,
        show v.length + padLen v.length =
          (v ++ List.replicate (padLen v.length) 0).length by simp,
        List.drop_left]
      have hdisj2 : ∀ p ∈ acc ++ [(attr_name, attr_value)], ∀ q ∈ rest, p.1 ≠ q.1 := by
        intro p hp q hq
        rcases List.mem_append.mp hp with hin | hin
        · exact hdisj p hin q (List.mem_cons_of_mem _ hq)
        · rw [List.mem_singleton.mp hin]
          exact h2 q hq
      rw [parseAttrs_encodeAttrs transaction_id ht rest
        (acc ++ [(attr_name, attr_value)]) restB h3 hdisj2 hrest]
      rw [List.append_assoc, List.singleton_append]


theorem packU32_cons (n : Nat) (l : Bytes) :
    packU32 n ++ l =
      n / 16777216 % 256 :: n / 65536 % 256 :: n / 256 % 256 :: n % 256 :: l := by
  simp [packU32]

/-- Parsing any serialized header: the cookie bytes c0..c3 are arbitrary
because parse_message never reads them. -/
theorem parse_message_header (mt L c0 c1 c2 c3 : Nat) (ti enc : Bytes)
    (hmt : mt < 65536) (hL : L < 65536) (htl : ti.length = 12) (hLe : enc.length = L) :
    parse_message (packU16 mt ++ (packU16 L ++ (c0 :: c1 :: c2 :: c3 :: (ti ++ enc)))) =
      match parseAttrs ti enc [] with
      | .ok attributes =>
          .ok { message_method := mt &&& 0x3eef, message_class := mt &&& 0x0100,
                transaction_id := ti, attributes := attributes }
      | .error e => .error e := by
  rw [packU16_cons, packU16_cons]
  simp only [parse_message, List.getD_cons_zero, List.getD_cons_succ,
    List.length_cons, List.length_append, htl]
  rw [u16be_packU16 _ hmt, u16be_packU16 _ hL]
  rw [if_neg (by simp only [HEADER_LENGTH]; omega)]
  rw [if_neg (by simp only [HEADER_LENGTH]; omega)]
  simp only [List.drop_succ_cons, List.drop_zero]
  rw [show List.take 12 (ti ++ enc) = ti from by rw [← htl]; exact List.take_left _ _]
  simp only [HEADER_LENGTH, List.drop_succ_cons, List.drop_zero]
  rw [show List.drop 12 (ti ++ enc) = enc from by rw [← htl]; exact List.drop_left _ _]
  cases parseAttrs ti enc [] <;> rfl

/-- Well-formedness of a whole message under which the round trip is
exact: the method survives the 0x3eef mask, the class is REQUEST or
RESPONSE, the transaction id is 12 actual bytes, and the attributes are
well-formed with distinct registered names. -/
def wfMessage (m : Message) : Bool :=
  decide (m.message_method &&& 0x3eef = m.message_method) &&
  (decide (m.message_class = 0x000) || decide (m.message_class = 0x100)) &&
  decide (m.transaction_id.length = 12) &&
  m.transaction_id.all (fun b => decide (b < 256)) &&
  wfAttrs m.attributes

theorem parse_toBytes (m : Message) (data : Bytes)
    (hwf : wfMessage m = true) (henc : m.toBytes = some data) :
    parse_message data = .ok m := by
  obtain ⟨mm, mc, ti, attrs⟩ := m
  simp only [wfMessage, Bool.and_eq_true, Bool.or_eq_true, decide_eq_true_eq] at hwf
  obtain ⟨⟨⟨⟨hm, hcls⟩, htl⟩, _htb⟩, hattrs⟩ := hwf
  simp only [Message.toBytes, Option.bind_eq_some] at henc
  obtain ⟨enc, hencA, hif⟩ := henc
  by_cases hc : (mm ||| mc) < 65536 ∧ enc.length < 65536
  case neg =>
    rw [if_neg hc] at hif
    simp at hif
  rw [if_pos hc] at hif
  simp only [Option.some_inj] at hif
  subst hif
  have htid : List.take 12 ti ++ List.replicate (12 - List.length ti) 0 = ti := by
    rw [← htl, List.take_length, Nat.sub_self, List.replicate_zero, List.append_nil]
  rw [htid]
  simp only [List.append_assoc]
  rw [packU32_cons]
  rw [parse_message_header (mm ||| mc) enc.length _ _ _ _ ti enc hc.1 hc.2 htl rfl]
  rw [parseAttrs_encodeAttrs ti htl attrs [] enc hattrs (by simp) hencA]
  have hcls2 : mc = 0 ∨ mc = 0x100 := by
    rcases hcls with h | h
    · exact Or.inl h
    · exact Or.inr h
  rw [mask_method mm mc hm hcls2, mask_class mm mc hm hcls2]
  rfl

/-! ### Claim C1 -/

/-- C1 (counterexample): the claim promises the round trip for any of
the four classes and any 12-bit method, but serializing a BINDING
INDICATION (class 0x010) and parsing the bytes yields class 0x000
(REQUEST), and serializing method 0x10 with class REQUEST yields method
0x000, because parse_message recovers the fields with the masks 0x3eef
and 0x0100. -/
theorem C1_class_method_not_recovered :
    ((Message.toBytes ⟨0x1, 0x010, List.replicate 12 0, []⟩).map parse_message =
      some (.ok ⟨0x1, 0x000, List.replicate 12 0, []⟩)) ∧
    (0x000 : Nat) ≠ 0x010 ∧
    ((Message.toBytes ⟨0x10, 0x000, List.replicate 12 0, []⟩).map parse_message =
      some (.ok ⟨0x000, 0x000, List.replicate 12 0, []⟩)) ∧
    (0x000 : Nat) ≠ 0x010 := by decide

/-- C1 (amended): for every well-formed Message whose method survives
the 0x3eef mask (bits 0x0010 and 0x0100 clear) and whose class is
REQUEST (0x000) or RESPONSE (0x100), with a 12-byte transaction id and
any subset of the 19 supported attributes with well-formed values in any
order and with distinct names, and whose serialization succeeds,
parse_message(bytes(message)) returns a Message with the identical
method, class, transaction_id and attribute values, order preserved. -/
theorem C1_roundtrip (m : Message) (data : Bytes)
    (hwf : wfMessage m = true) (henc : m.toBytes = some data) :
    parse_message data = .ok m :=
  parse_toBytes m data hwf henc

/-- C1 (witness): the round trip evaluated on a concrete RESPONSE with a
string, an unsigned and an XOR-address attribute. -/
theorem C1_roundtrip_witness :
    wfMessage ⟨1, 0x100, [0, 1, 2, 3, 4, 5, 6, 7, 8, 9, 10, 11],
      [("USERNAME", .str [97, 98]), ("PRIORITY", .unsigned 7),
       ("XOR-MAPPED-ADDRESS", .addr (.v4 [192, 0, 2, 1], 3478))]⟩ = true ∧
    parse_message
      [1, 1, 0, 28, 33, 18, 164, 66, 0, 1, 2, 3, 4, 5, 6, 7, 8, 9, 10, 11,
       0, 6, 0, 2, 97, 98, 0, 0, 0, 36, 0, 4, 0, 0, 0, 7, 0, 32, 0, 8, 0, 1,
       44, 132, 225, 18, 166, 67] =
      .ok ⟨1, 0x100, [0, 1, 2, 3, 4, 5, 6, 7, 8, 9, 10, 11],
        [("USERNAME", .str [97, 98]), ("PRIORITY", .unsigned 7),
         ("XOR-MAPPED-ADDRESS", .addr (.v4 [192, 0, 2, 1], 3478))]⟩ :=
  ⟨by decide, C1_roundtrip _ _ (by decide) (by decide)⟩

/-! ### Claims C2 and C9: the transaction machine -/

theorem fireTimer_none (s : Transaction) (h : s.timeout_handle = Option.none) :
    Transaction.fireTimer s = s := by
  simp [Transaction.fireTimer, h]

theorem iterate_fireTimer_none (s : Transaction) (h : s.timeout_handle = Option.none) :
    ∀ n : Nat, Nat.iterate Transaction.fireTimer n s = s
  | 0 => rfl
  | n + 1 => by
      rw [Function.iterate_succ_apply, fireTimer_none s h,
        iterate_fireTimer_none s h n]

/-- C2: a Transaction started with run() and given no response sends the
request exactly 7 times, at 0, 0.5, 1, 2, 4, 8, 16 second spacing
(elapsed 0, 0.5, 1.5, 3.5, 7.5, 15.5, 31.5 s, in milliseconds here),
then after a final doubled delay of 32 s (clock 63.5 s) resolves the
awaited future with the Timeout failure value instead of crashing, and
stays quiescent forever after. -/
theorem C2_retry_schedule :
    (Nat.iterate Transaction.fireTimer 7 Transaction.run0).sends =
      [0, 500, 1500, 3500, 7500, 15500, 31500] ∧
    (Nat.iterate Transaction.fireTimer 7 Transaction.run0).future =
      some TxOutcome.timeout ∧
    (Nat.iterate Transaction.fireTimer 7 Transaction.run0).timeout_handle =
      Option.none ∧
    (Nat.iterate Transaction.fireTimer 7 Transaction.run0).now = 63500 ∧
    ∀ n : Nat,
      Nat.iterate Transaction.fireTimer n
        (Nat.iterate Transaction.fireTimer 7 Transaction.run0) =
      Nat.iterate Transaction.fireTimer 7 Transaction.run0 :=
  ⟨by decide, by decide, by decide, by decide,
   iterate_fireTimer_none _ (by decide)⟩

/-- C9: message_received invoked on a running Transaction (future still
pending, a retry timer outstanding) cancels the pending timer, resolves
the future a run() caller awaits with the received message, and no
further sends ever occur however often the event loop fires. -/
theorem C9_message_received (s : Transaction) (msg : Message)
    (hpending : s.future = Option.none)
    (htimer : s.timeout_handle.isSome = true) :
    (Transaction.message_received s msg).timeout_handle = Option.none ∧
    (Transaction.message_received s msg).future = some (.response msg) ∧
    ∀ n : Nat,
      (Nat.iterate Transaction.fireTimer n
        (Transaction.message_received s msg)).sends = s.sends ∧
      (Nat.iterate Transaction.fireTimer n
        (Transaction.message_received s msg)).future = some (.response msg) := by
  refine ⟨rfl, rfl, fun n => ?_⟩
  rw [iterate_fireTimer_none _ rfl n]
  exact ⟨rfl, rfl⟩

/-- C9 (witness): a response delivered after the third send: the timer
is cancelled, the sends stay the three already made, and the future
holds the message, also after four more timer fires. -/
theorem C9_message_received_witness :
    (Transaction.message_received
      (Nat.iterate Transaction.fireTimer 2 Transaction.run0)
      ⟨1, 0, List.replicate 12 0, []⟩).timeout_handle = Option.none ∧
    (Nat.iterate Transaction.fireTimer 4
      (Transaction.message_received
        (Nat.iterate Transaction.fireTimer 2 Transaction.run0)
        ⟨1, 0, List.replicate 12 0, []⟩)).sends = [0, 500, 1500] ∧
    (Nat.iterate Transaction.fireTimer 4
      (Transaction.message_received
        (Nat.iterate Transaction.fireTimer 2 Transaction.run0)
        ⟨1, 0, List.replicate 12 0, []⟩)).future =
      some (.response ⟨1, 0, List.replicate 12 0, []⟩) := by
  have h := C9_message_received
    (Nat.iterate Transaction.fireTimer 2 Transaction.run0)
    ⟨1, 0, List.replicate 12 0, []⟩ (by decide) (by decide)
  refine ⟨h.1, ?_, (h.2.2 4).2⟩
  rw [(h.2.2 4).1]
  decide

/-! ### Claims C5 and C6: xor_address -/

/-- C5 (counterexample): the claim quantifies over every byte string,
but on a 21-byte input with a 12-byte transaction id the source loop
indexes xpad[18] past the end of the 18-byte pad (IndexError, none
here), so the double application does not return the input. -/
theorem C5_involution_fails_on_21_bytes :
    (xor_address (List.replicate 21 0) (List.replicate 12 0)).bind
      (fun y => xor_address y (List.replicate 12 0)) ≠
      some (List.replicate 21 0) ∧
    xor_address (List.replicate 21 0) (List.replicate 12 0) = Option.none := by decide

/-- C5 (amended): for every byte string b of length at most 20 (every
address payload: 8 bytes for IPv4, 20 for IPv6) and every 12-byte
transaction id t, xor_address(xor_address(b, t), t) returns b. -/
theorem C5_involution (b t : Bytes) (ht : t.length = 12) (hb : b.length ≤ 20) :
    (xor_address b t).bind (fun y => xor_address y t) = some b :=
  xor_address_involutive b t (by omega)

/-- C5 (witness): the involution evaluated on a concrete 6-byte string
and transaction id. -/
theorem C5_involution_witness :
    (xor_address [0, 0, 1, 2, 3, 4] (List.replicate 12 7)).bind
      (fun y => xor_address y (List.replicate 12 7)) =
      some [0, 0, 1, 2, 3, 4] :=
  C5_involution [0, 0, 1, 2, 3, 4] (List.replicate 12 7) (by decide) (by decide)

/-- The transform exactly as claim C6 words it: the pad would be the
4-byte big-endian magic cookie followed by the 12-byte transaction id. -/
def xor_address_claimed (data transaction_id : Bytes) : Bytes :=
  data.take 2 ++ (data.drop 2).zipWith Nat.xor (packU32 COOKIE ++ transaction_id)

/-- C6 (counterexample): from byte 4 on, the code XORs against the full
cookie after a 2-byte cookie >> 16 prefix, not against the cookie
directly: on [0,0,0,0,0] the code produces byte 4 = 0x21 (high byte of
the cookie, offset 2 of pack("!HI", COOKIE >> 16, COOKIE)) while the
claimed pad gives 0xa4 (third cookie byte). -/
theorem C6_pad_layout_differs :
    xor_address [0, 0, 0, 0, 0] (List.replicate 12 0) = some [0, 0, 33, 18, 33] ∧
    xor_address_claimed [0, 0, 0, 0, 0] (List.replicate 12 0) = [0, 0, 33, 18, 164] ∧
    (33 : Nat) ≠ 164 := by decide

theorem getD_zipWith_xor : ∀ (l p : Bytes) (k : Nat), k < l.length → l.length ≤ p.length →
    (l.zipWith Nat.xor p).getD k 0 = Nat.xor (l.getD k 0) (p.getD k 0)
  | _ :: _, _ :: _, 0, _, _ => rfl
  | _ :: l, _ :: p, k + 1, hk, hlp => by
      simp only [List.zipWith_cons_cons, List.getD_cons_succ]
      exact getD_zipWith_xor l p k (by simpa using hk) (by simpa using hlp)
  | [], _, k, hk, _ => absurd hk (by simp)
  | _ :: l, [], k, hk, hlp => by simp at hlp

/-- C6 (amended): when xor_address(data, t) returns, the output has the
length of data, keeps the first two bytes, and XORs byte i (i >= 2)
against byte i - 2 of the pad pack("!HI", COOKIE >> 16, COOKIE) + t,
that is the two bytes of COOKIE >> 16 followed by the four cookie bytes
followed by the transaction id. -/
theorem C6_xor_bytes (data transaction_id out : Bytes)
    (h : xor_address data transaction_id = some out) :
    out.length = data.length ∧
    (∀ i : Nat, i < 2 → out.getD i 0 = data.getD i 0) ∧
    (∀ i : Nat, 2 ≤ i → i < data.length →
      out.getD i 0 = Nat.xor (data.getD i 0)
        ((packU16 (COOKIE >>> 16) ++ packU32 COOKIE ++ transaction_id).getD (i - 2) 0)) := by
  have hlen := xor_address_length data transaction_id out h
  simp only [xor_address] at h
  split at h
  case isFalse => cases h
  rename_i hle
  rw [xpad_length] at hle
  cases h
  refine ⟨hlen, ?_, ?_⟩
  · intro i h1
    rcases data with _ | ⟨a, _ | ⟨b, rest⟩⟩
    · simp
    · simp
    · match i, h1 with
      | 0, _ => rfl
      | 1, _ => rfl
  · intro i h1 h2
    rcases data with _ | ⟨a, _ | ⟨b, rest⟩⟩
    · simp at h2
    · simp only [List.length_cons, List.length_nil] at h2
      omega
    · simp only [List.length_cons] at hle h2
      obtain ⟨k, rfl⟩ : ∃ k, i = k + 2 := ⟨i - 2, by omega⟩
      simp only [List.take_succ_cons, List.take_zero, List.drop_succ_cons,
        List.drop_zero, List.cons_append, List.nil_append, List.getD_cons_succ]
      exact getD_zipWith_xor rest _ k (by omega) (by rw [xpad_length]; omega)

/-- C6 (witness): the elementwise description evaluated at byte 4 of a
concrete input. -/
theorem C6_xor_bytes_witness :
    xor_address [0, 0, 1, 2, 3, 4] (List.replicate 12 7) = some [0, 0, 32, 16, 34, 22] ∧
    List.getD [0, 0, 32, 16, 34, 22] 4 0 =
      Nat.xor (List.getD [0, 0, 1, 2, 3, 4] 4 0)
        ((packU16 (COOKIE >>> 16) ++ packU32 COOKIE ++ List.replicate 12 7).getD 2 0) := by
  refine ⟨by decide, ?_⟩
  have h := C6_xor_bytes [0, 0, 1, 2, 3, 4] (List.replicate 12 7)
    [0, 0, 32, 16, 34, 22] (by decide)
  exact h.2.2 4 (by decide) (by decide)

/-! ### Claims C3 and C4: length patching for FINGERPRINT and
MESSAGE-INTEGRITY -/

/-- The byte string the spec says the checksum is computed over: the
serialization of the message with the 16-bit header length field
replaced by n, the attribute bytes enc untouched. -/
def patched_serialization (m : Message) (enc : Bytes) (n : Nat) : Bytes :=
  packU16 (m.message_method ||| m.message_class) ++ packU16 n ++ packU32 COOKIE ++
  (m.transaction_id.take 12 ++ List.replicate (12 - m.transaction_id.length) 0) ++ enc

/-- Patching the length field of a serialized message in place equals
re-serializing the header with the new length over the untouched
attribute bytes. -/
theorem length_patch (m : Message) (enc data : Bytes) (n : Nat)
    (henc : encodeAttrs m.transaction_id m.attributes = some enc)
    (hdata : m.toBytes = some data) :
    data.length = 20 + enc.length ∧
    data.take 2 ++ packU16 n ++ data.drop 4 = patched_serialization m enc n := by
  simp only [Message.toBytes, Option.bind_eq_some] at hdata
  obtain ⟨enc2, henc2, hif⟩ := hdata
  rw [henc] at henc2
  cases henc2
  by_cases hc : (m.message_method ||| m.message_class) < 65536 ∧ enc.length < 65536
  case neg =>
    rw [if_neg hc] at hif
    simp at hif
  rw [if_pos hc] at hif
  simp only [Option.some_inj] at hif
  subst hif
  constructor
  · simp only [List.length_append, List.length_take, List.length_replicate,
      packU16, packU32, List.length_cons, List.length_nil]
    omega
  · simp only [patched_serialization, List.append_assoc, packU16_cons, packU32_cons,
      List.take_succ_cons, List.take_zero, List.drop_succ_cons, List.drop_zero,
      List.cons_append, List.nil_append]

/-- C3: add_fingerprint stores under FINGERPRINT the value
CRC32(patched) XOR 0x5354554e, where patched is the current
serialization with its 16-bit header length field showing the original
attribute-section length plus 8 and the attribute bytes not
re-serialized; the method, class and transaction id are untouched, and
when FINGERPRINT was not already present the attribute is appended to
the dict, to be emitted only by the next serialization. -/
theorem C3_add_fingerprint (crc32 : Bytes → Nat) (m m2 : Message) (enc : Bytes)
    (henc : encodeAttrs m.transaction_id m.attributes = some enc)
    (h : m.add_fingerprint crc32 = some m2) :
    m2.message_method = m.message_method ∧
    m2.message_class = m.message_class ∧
    m2.transaction_id = m.transaction_id ∧
    m2.attributes = dictSet m.attributes "FINGERPRINT"
      (AttrValue.unsigned (Nat.xor
        (crc32 (patched_serialization m enc (enc.length + 8))) FINGERPRINT_XOR)) ∧
    ((∀ p ∈ m.attributes, p.1 ≠ "FINGERPRINT") →
      m2.attributes = m.attributes ++ [("FINGERPRINT",
        AttrValue.unsigned (Nat.xor
          (crc32 (patched_serialization m enc (enc.length + 8))) FINGERPRINT_XOR))]) := by
  simp only [Message.add_fingerprint, Option.bind_eq_some] at h
  obtain ⟨data, hdata, hif⟩ := h
  obtain ⟨hlen, hpatch⟩ := length_patch m enc data (data.length - HEADER_LENGTH + 8)
    henc hdata
  rw [hlen] at hif
  by_cases hc : 20 + enc.length - HEADER_LENGTH + 8 < 65536
  case neg =>
    rw [if_neg hc] at hif
    simp at hif
  rw [if_pos hc] at hif
  simp only [Option.some_inj] at hif
  subst hif
  rw [hlen] at hpatch
  rw [show 20 + enc.length - HEADER_LENGTH + 8 = enc.length + 8 from by
    simp only [HEADER_LENGTH]; omega] at hpatch ⊢
  rw [hpatch]
  refine ⟨rfl, rfl, rfl, rfl, fun hfresh => ?_⟩
  exact dictSet_fresh m.attributes "FINGERPRINT" _ hfresh

/-- C3 (witness): add_fingerprint on a concrete attribute-free message
with the zero CRC32 function stores 0 XOR 0x5354554e. -/
theorem C3_add_fingerprint_witness :
    Message.add_fingerprint ⟨1, 0, List.replicate 12 0, []⟩ (fun _ => 0) =
      some ⟨1, 0, List.replicate 12 0, [("FINGERPRINT", .unsigned 0x5354554e)]⟩ ∧
    (⟨1, 0, List.replicate 12 0,
      [("FINGERPRINT", AttrValue.unsigned 0x5354554e)]⟩ : Message).attributes =
      dictSet ([] : List (String × AttrValue)) "FINGERPRINT"
        (AttrValue.unsigned (Nat.xor
          ((fun _ => 0) (patched_serialization ⟨1, 0, List.replicate 12 0, []⟩ [] (0 + 8)))
          FINGERPRINT_XOR)) := by
  refine ⟨by decide, ?_⟩
  have h := C3_add_fingerprint (fun _ => 0) ⟨1, 0, List.replicate 12 0, []⟩
    ⟨1, 0, List.replicate 12 0, [("FINGERPRINT", .unsigned 0x5354554e)]⟩ []
    (by decide) (by decide)
  simpa using h.2.2.2.1

/-- C4: add_message_integrity(key) stores under MESSAGE-INTEGRITY the
HMAC-SHA1 digest, keyed by key, of the current serialization with its
16-bit header length field showing the original attribute-section
length plus 24 and the attribute bytes not re-serialized; method, class
and transaction id are untouched. -/
theorem C4_add_message_integrity (hmacSha1 : Bytes → Bytes → Bytes) (key : Bytes)
    (m m2 : Message) (enc : Bytes)
    (henc : encodeAttrs m.transaction_id m.attributes = some enc)
    (h : m.add_message_integrity hmacSha1 key = some m2) :
    m2.message_method = m.message_method ∧
    m2.message_class = m.message_class ∧
    m2.transaction_id = m.transaction_id ∧
    m2.attributes = dictSet m.attributes "MESSAGE-INTEGRITY"
      (AttrValue.bytes (hmacSha1 key
        (patched_serialization m enc (enc.length + 24)))) := by
  simp only [Message.add_message_integrity, Option.bind_eq_some] at h
  obtain ⟨data, hdata, hif⟩ := h
  obtain ⟨hlen, hpatch⟩ := length_patch m enc data (data.length - HEADER_LENGTH + 24)
    henc hdata
  rw [hlen] at hif
  by_cases hc : 20 + enc.length - HEADER_LENGTH + 24 < 65536
  case neg =>
    rw [if_neg hc] at hif
    simp at hif
  rw [if_pos hc] at hif
  simp only [Option.some_inj] at hif
  subst hif
  rw [hlen] at hpatch
  rw [show 20 + enc.length - HEADER_LENGTH + 24 = enc.length + 24 from by
    simp only [HEADER_LENGTH]; omega] at hpatch ⊢
  rw [hpatch]
  exact ⟨rfl, rfl, rfl, rfl⟩

/-- C4 (witness): add_message_integrity on a concrete attribute-free
message with a constant HMAC function stores that constant digest. -/
theorem C4_add_message_integrity_witness :
    Message.add_message_integrity ⟨1, 0, List.replicate 12 0, []⟩
      (fun _ _ => List.replicate 20 1) [107, 101, 121] =
      some ⟨1, 0, List.replicate 12 0,
        [("MESSAGE-INTEGRITY", .bytes (List.replicate 20 1))]⟩ ∧
    (⟨1, 0, List.replicate 12 0,
      [("MESSAGE-INTEGRITY", AttrValue.bytes (List.replicate 20 1))]⟩ : Message).attributes =
      dictSet ([] : List (String × AttrValue)) "MESSAGE-INTEGRITY"
        (AttrValue.bytes ((fun _ _ => List.replicate 20 1) [107, 101, 121]
          (patched_serialization ⟨1, 0, List.replicate 12 0, []⟩ [] (0 + 24)))) := by
  refine ⟨by decide, ?_⟩
  have h := C4_add_message_integrity (fun _ _ => List.replicate 20 1) [107, 101, 121]
    ⟨1, 0, List.replicate 12 0, []⟩
    ⟨1, 0, List.replicate 12 0, [("MESSAGE-INTEGRITY", .bytes (List.replicate 20 1))]⟩
    [] (by decide) (by decide)
  simpa using h.2.2.2

/-! ### Claim C10: the cookie field is never inspected -/

theorem getD_eq_of_take_eq (l1 l2 : Bytes) (n i : Nat) (h : l1.take n = l2.take n)
    (hi : i < n) : l1.getD i 0 = l2.getD i 0 := by
  rw [List.getD_eq_getElem?_getD, List.getD_eq_getElem?_getD,
    ← List.getElem?_take_of_lt hi, ← List.getElem?_take_of_lt (l := l2) hi, h]

/-- C10: parse_message never inspects the magic-cookie field: two
inputs of the same length agreeing on bytes 0..3 and on bytes 8..end
parse to the same result, whatever bytes 4..7 hold, so a deviant cookie
is accepted and never recorded (the parsed Message has no cookie
field). -/
theorem C10_cookie_ignored (d1 d2 : Bytes)
    (hlen : 20 ≤ d1.length) (heq : d1.length = d2.length)
    (h4 : d1.take 4 = d2.take 4) (h8 : d1.drop 8 = d2.drop 8) :
    parse_message d1 = parse_message d2 := by
  simp only [parse_message]
  rw [show List.drop HEADER_LENGTH d1 = List.drop 12 (List.drop 8 d1) from by
    rw [List.drop_drop]; norm_num [HEADER_LENGTH]]
  rw [show List.drop HEADER_LENGTH d2 = List.drop 12 (List.drop 8 d2) from by
    rw [List.drop_drop]; norm_num [HEADER_LENGTH]]
  rw [getD_eq_of_take_eq d1 d2 4 0 h4 (by omega),
    getD_eq_of_take_eq d1 d2 4 1 h4 (by omega),
    getD_eq_of_take_eq d1 d2 4 2 h4 (by omega),
    getD_eq_of_take_eq d1 d2 4 3 h4 (by omega),
    heq, h8]

/-- C10 (witness): a concrete well-formed message and the same bytes
with the cookie field zeroed parse identically, and the zero-cookie
input is accepted. -/
theorem C10_cookie_ignored_witness :
    parse_message
      ([0, 1, 0, 0, 33, 18, 164, 66] ++ List.replicate 12 5) =
    parse_message
      ([0, 1, 0, 0, 0, 0, 0, 0] ++ List.replicate 12 5) ∧
    parse_message ([0, 1, 0, 0, 0, 0, 0, 0] ++ List.replicate 12 5) =
      .ok ⟨1, 0, List.replicate 12 5, []⟩ :=
  ⟨C10_cookie_ignored _ _ (by decide) (by decide) (by decide) (by decide),
   by decide⟩

/-! ### Claim C8: the attribute registry -/

theorem foldl_dictSet_eq {α : Type} [DecidableEq α] (key : AttrDesc → α) :
    ∀ (table : List AttrDesc) (acc : List (α × AttrDesc)),
    (acc.map Prod.fst ++ table.map key).Nodup →
    table.foldl (fun d a => dictSet d (key a) a) acc =
      acc ++ table.map (fun a => (key a, a))
  | [], acc, _ => by simp
  | a :: t, acc, h => by
      simp only [List.map_cons] at h
      have h2 : ((acc.map Prod.fst ++ [key a]) ++ t.map key).Nodup := by
        rw [← List.append_cons]
        exact h
      have hda : key a ∉ acc.map Prod.fst := by
        rcases List.nodup_append.mp h with ⟨_, _, hdisj⟩
        intro hmem
        exact hdisj hmem (List.mem_cons_self _ _)
      have hfresh : ∀ p ∈ acc, p.1 ≠ key a := by
        intro p hp hpk
        exact hda (hpk ▸ List.mem_map_of_mem Prod.fst hp)
      simp only [List.foldl_cons]
      rw [dictSet_fresh _ _ _ hfresh]
      rw [foldl_dictSet_eq key t (acc ++ [(key a, a)]) (by
        simpa only [List.map_append, List.map_cons, List.map_nil] using h2)]
      simp [List.append_assoc]

theorem find?_map_key {α : Type} [DecidableEq α] (key : AttrDesc → α) :
    ∀ (table : List AttrDesc) (d : AttrDesc), d ∈ table → (table.map key).Nodup →
    (table.map (fun a => (key a, a))).find? (fun p => decide (p.1 = key d)) =
      some (key d, d)
  | [], d, hmem, _ => absurd hmem (List.not_mem_nil d)
  | a :: t, d, hmem, hnodup => by
      simp only [List.map_cons] at hnodup ⊢
      by_cases hk : key a = key d
      · rcases List.mem_cons.mp hmem with rfl | hmem2
        · rw [List.find?_cons_of_pos _ (by simp)]
        · exfalso
          have : key d ∈ t.map key := List.mem_map_of_mem key hmem2
          rw [← hk] at this
          exact (List.nodup_cons.mp hnodup).1 this
      · rw [List.find?_cons_of_neg _ (by simp [hk])]
        have hmem2 : d ∈ t := by
          rcases List.mem_cons.mp hmem with rfl | hmem2
          · exact absurd rfl hk
          · exact hmem2
        exact find?_map_key key t d hmem2 (List.nodup_cons.mp hnodup).2

/-- C8 (counterexample): building the by-type index from a table with a
duplicate type code does not fail: the second entry silently overwrites
the first and the lookup returns it. -/
theorem C8_duplicate_overwrites :
    buildByType [⟨1, "A", .bytes⟩, ⟨1, "B", .bytes⟩] = [(1, ⟨1, "B", .bytes⟩)] ∧
    dictGet (buildByType [⟨1, "A", .bytes⟩, ⟨1, "B", .bytes⟩]) 1 =
      some ⟨1, "B", .bytes⟩ := by decide

/-- C8 (amended): the registry build never fails; on a duplicate code or
name the later entry silently overwrites the earlier one.  For any table
without duplicate codes (respectively names) the built index maps every
code (name) to its unique descriptor, and the actual 19-entry ATTRIBUTES
table has no duplicate codes or names. -/
theorem C8_registry :
    (∀ (table : List AttrDesc), (table.map AttrDesc.code).Nodup →
      ∀ d ∈ table, dictGet (buildByType table) d.code = some d) ∧
    (∀ (table : List AttrDesc), (table.map AttrDesc.name).Nodup →
      ∀ d ∈ table, dictGet (buildByName table) d.name = some d) ∧
    (ATTRIBUTES.map AttrDesc.code).Nodup ∧
    (ATTRIBUTES.map AttrDesc.name).Nodup := by
  refine ⟨?_, ?_, by decide, by decide⟩
  · intro table hnd d hmem
    rw [show buildByType table = table.map (fun a => (a.code, a)) from by
      rw [buildByType, foldl_dictSet_eq AttrDesc.code table [] (by simpa using hnd)]
      simp]
    rw [dictGet, find?_map_key AttrDesc.code table d hmem hnd]
    rfl
  · intro table hnd d hmem
    rw [show buildByName table = table.map (fun a => (a.name, a)) from by
      rw [buildByName, foldl_dictSet_eq AttrDesc.name table [] (by simpa using hnd)]
      simp]
    rw [dictGet, find?_map_key AttrDesc.name table d hmem hnd]
    rfl

/-- C8 (witness): the by-type lookup evaluated on the real table at code
0x0001. -/
theorem C8_registry_witness :
    dictGet (buildByType ATTRIBUTES) 0x0001 =
      some ⟨0x0001, "MAPPED-ADDRESS", .address⟩ :=
  C8_registry.1 ATTRIBUTES (by decide) ⟨0x0001, "MAPPED-ADDRESS", .address⟩ (by decide)

/-! ### Claim C7: parse errors and unknown-attribute skipping -/

/-- C7 (counterexample): the claim says a truncated attribute raises an
error, but a NONCE attribute declaring length 255 in a 28-byte message
(only 4 value bytes present) parses without error: Python slicing
truncates the value silently and the bytes unpacker accepts anything. -/
theorem C7_truncated_bytes_attribute_accepted :
    parse_message ([0, 1, 0, 8, 33, 18, 164, 66] ++ List.replicate 12 0 ++
      [0, 21, 0, 255, 1, 2, 3, 4]) =
      .ok ⟨1, 0, List.replicate 12 0, [("NONCE", .bytes [1, 2, 3, 4])]⟩ ∧
    20 + 4 + 255 > ([0, 1, 0, 8, 33, 18, 164, 66] ++ List.replicate 12 0 ++
      [0, 21, 0, 255, 1, 2, 3, 4]).length := by decide

/-- C7 (amended): parse_message raises exactly on: input shorter than
20 bytes; input length different from 20 plus the declared length; or a
walked attribute with a registered type whose unpacker rejects its
(possibly silently truncated) value.  Unknown type codes are skipped:
not stored, not an error, the offset advancing by the same
4 + length + padding.  Per kind: bytes-valued and valueless attributes
never fail (so truncation alone is not an error), u32 attributes fail
exactly when the value is not 4 bytes, and address attributes fail
exactly on a short value, a wrong address length for the declared
protocol, or an unsupported protocol. -/
theorem C7_parse_errors :
    (∀ d : Bytes, d.length < 20 →
      parse_message d = .error "STUN message length is less than 20 bytes") ∧
    (∀ d : Bytes, 20 ≤ d.length →
      d.length ≠ 20 + u16be (d.getD 2 0) (d.getD 3 0) →
      parse_message d = .error "STUN message length does not match") ∧
    (∀ d : Bytes, 20 ≤ d.length →
      d.length = 20 + u16be (d.getD 2 0) (d.getD 3 0) →
      ((∃ e, parse_message d = .error e) ↔
       (∃ e, parseAttrs ((d.drop 8).take 12) (d.drop HEADER_LENGTH) [] = .error e))) ∧
    (∀ (transaction_id : Bytes) (t0 t1 l0 l1 : Nat) (tail : Bytes)
       (acc : List (String × AttrValue)),
      lookupByType (u16be t0 t1) = Option.none →
      parseAttrs transaction_id (t0 :: t1 :: l0 :: l1 :: tail) acc =
        parseAttrs transaction_id
          (tail.drop (u16be l0 l1 + padLen (u16be l0 l1))) acc) ∧
    (∀ (v transaction_id : Bytes),
      unpackAttr .bytes v transaction_id = .ok (.bytes v) ∧
      unpackAttr .none v transaction_id = .ok .none) ∧
    (∀ (v transaction_id : Bytes),
      (∃ e, unpackAttr .unsigned v transaction_id = .error e) ↔ v.length ≠ 4) ∧
    (∀ v : Bytes,
      (∃ e, unpack_address v = .error e) ↔
      (v.length < 4 ∨
       (v.getD 1 0 = IPV4_PROTOCOL ∧ v.length ≠ 8) ∨
       (v.getD 1 0 = IPV6_PROTOCOL ∧ v.length ≠ 20) ∨
       (v.getD 1 0 ≠ IPV4_PROTOCOL ∧ v.getD 1 0 ≠ IPV6_PROTOCOL))) := by
  refine ⟨?_, ?_, ?_, ?_, ?_, ?_, ?_⟩
  · intro d h
    simp only [parse_message]
    rw [if_pos (by simp only [HEADER_LENGTH]; omega)]
  · intro d h1 h2
    simp only [parse_message]
    rw [if_neg (by simp only [HEADER_LENGTH]; omega)]
    rw [if_pos (by simp only [HEADER_LENGTH]; omega)]
  · intro d h1 h2
    simp only [parse_message]
    rw [if_neg (by simp only [HEADER_LENGTH]; omega)]
    rw [if_neg (by simp only [HEADER_LENGTH]; omega)]
    cases hpa : parseAttrs ((d.drop 8).take 12) (d.drop HEADER_LENGTH) [] <;>
      simp [hpa]
  · intro transaction_id t0 t1 l0 l1 tail acc hl
    rw [parseAttrs_cons, hl]
  · intro v transaction_id
    exact ⟨rfl, rfl⟩
  · intro v transaction_id
    match v with
    | [] => simp [unpackAttr]
    | [_] => simp [unpackAttr]
    | [_, _] => simp [unpackAttr]
    | [_, _, _] => simp [unpackAttr]
    | [_, _, _, _] => simp [unpackAttr]
    | _ :: _ :: _ :: _ :: _ :: _ => simp [unpackAttr]
  · intro v
    match v with
    | [] => simp [unpack_address]
    | [_] => simp [unpack_address]
    | [_, _] => simp [unpack_address]
    | [_, _, _] => simp [unpack_address]
    | r :: p :: p0 :: p1 :: address =>
        simp only [unpack_address, List.getD_cons_succ, List.getD_cons_zero,
          List.length_cons]
        by_cases h4 : p = IPV4_PROTOCOL
        · subst h4
          by_cases hlen : address.length = 4
          · rw [if_pos rfl, if_neg (by omega)]
            simp only [IPV4_PROTOCOL, IPV6_PROTOCOL]
            constructor
            · rintro ⟨e, he⟩
              cases he
            · intro hdisj
              rcases hdisj with h | ⟨_, h⟩ | ⟨h, _⟩ | ⟨h, _⟩ <;> omega
          · rw [if_pos rfl, if_pos (by omega)]
            simp only [IPV4_PROTOCOL, IPV6_PROTOCOL]
            constructor
            · intro _
              exact Or.inr (Or.inl ⟨by trivial, by omega⟩)
            · intro _
              exact ⟨_, rfl⟩
        · by_cases h6 : p = IPV6_PROTOCOL
          · subst h6
            by_cases hlen : address.length = 16
            · rw [if_neg (by simpa [IPV4_PROTOCOL, IPV6_PROTOCOL] using h4),
                if_pos rfl, if_neg (by omega)]
              simp only [IPV4_PROTOCOL, IPV6_PROTOCOL]
              constructor
              · rintro ⟨e, he⟩
                cases he
              · intro hdisj
                rcases hdisj with h | ⟨h, _⟩ | ⟨_, h⟩ | ⟨_, h⟩ <;> omega
            · rw [if_neg (by simpa [IPV4_PROTOCOL, IPV6_PROTOCOL] using h4),
                if_pos rfl, if_pos (by omega)]
              simp only [IPV4_PROTOCOL, IPV6_PROTOCOL]
              constructor
              · intro _
                exact Or.inr (Or.inr (Or.inl ⟨by trivial, by omega⟩))
              · intro _
                exact ⟨_, rfl⟩
          · rw [if_neg h4, if_neg h6]
            constructor
            · intro _
              exact Or.inr (Or.inr (Or.inr ⟨h4, h6⟩))
            · intro _
              exact ⟨_, rfl⟩

/-- C7 (witness): the short-input error evaluated on the empty input. -/
theorem C7_parse_errors_witness :
    parse_message [] = .error "STUN message length is less than 20 bytes" :=
  C7_parse_errors.1 [] (by decide)
